import Mathlib

/-!
Shallow embedding of `src/main.py` (Meta Grafana Dashboard API).

The core of the program is:
  - the Metric Normalizer helpers `extract_action_value`, `extract_cost_per_action`
    and `calculate_cpl` (main.py lines 100-124),
  - the Snapshot Builder inside the `collect` endpoint (lines 141-235), which
    fetches three levels of raw insight records, normalizes them and writes one
    snapshot document, and
  - the Delta Engine inside the `get_intraday` endpoint (lines 237-286), which
    diffs the two most recent snapshots per level.

Python floats are modelled as rationals (the claims are about which values are
computed and which branches are taken, not about IEEE rounding); Python ints as
integers; JSON dictionary fields that may be absent as `Option`; Python
exceptions as `Except String`.  Timestamp plumbing (`ts`, `date`, `doc_id`) and
HTTP/auth glue are out of scope per the spec and are not modelled.
-/

namespace MetaDash

/-- The fixed target action identifier (main.py line 44). -/
def ACTION_TYPE : String := "onsite_conversion.messaging_conversation_started_7d"

/-- A raw JSON numeric field as `item.get(...)` sees it: absent, a parsed
number, or a string that does not parse as a float (Python `float` raises on
it). -/
inductive RawField where
  | missing
  | num (q : ℚ)
  | badStr (s : String)
deriving DecidableEq

/-- Python `float(item.get(field, 0))`: the default 0 is used when the field is
absent; a parsable value yields its numeric value; an unparsable string raises
`ValueError`. -/
def pyFloatField : RawField → Except String ℚ
  | .missing => .ok 0
  | .num q => .ok q
  | .badStr s => .error ("could not convert string to float: " ++ s)

/-- Python `int(float(v))`: truncation toward zero.  On a rational in lowest
terms this is `num / den` with toward-zero integer division. -/
def pyInt (q : ℚ) : ℤ :=
  q.num.tdiv (q.den : ℤ)

/-- One entry of an `actions` / `cost_per_action_type` list: a JSON object with
optional `action_type` and `value` keys (the numeric value, when present and
parsable). -/
structure ActionEntry where
  action_type : Option String
  value : Option ℚ
deriving DecidableEq

/-- `extract_action_value` (main.py lines 100-107): scan the `actions` list for
the first entry whose `action_type` matches, return `int(float(value))` with
`value` defaulting to 0; return 0 when the list is empty or no entry matches. -/
def extract_action_value (actions : List ActionEntry) (t : String) : ℤ :=
  match actions with
  | [] => 0
  | a :: rest =>
      if a.action_type = some t then pyInt (a.value.getD 0)
      else extract_action_value rest t

/-- `extract_cost_per_action` (main.py lines 109-116): scan the
`cost_per_action_type` list for the first entry whose `action_type` matches,
return `float(value)` with `value` defaulting to 0; return `None` when the list
is empty or no entry matches. -/
def extract_cost_per_action (items : List ActionEntry) (t : String) : Option ℚ :=
  match items with
  | [] => none
  | a :: rest =>
      if a.action_type = some t then some (a.value.getD 0)
      else extract_cost_per_action rest t

/-- `calculate_cpl` (main.py lines 118-124): prefer the API-reported cost per
action; otherwise `spend / conv` when `conv > 0`; otherwise `None`. -/
def calculate_cpl (spend : ℚ) (conv : ℤ) (cpa : Option ℚ) : Option ℚ :=
  match cpa with
  | some c => some c
  | none => if 0 < conv then some (spend / (conv : ℚ)) else none

/-- One raw insight record returned by the Meta API, with the identity fields
the three levels use (each may be absent from the JSON object). -/
structure RawInsight where
  campaign_id : Option String := none
  adset_id : Option String := none
  ad_id : Option String := none
  campaign_name : Option String := none
  adset_name : Option String := none
  ad_name : Option String := none
  spend : RawField := .missing
  actions : List ActionEntry := []
  cost_per_action_type : List ActionEntry := []
deriving DecidableEq

/-- One normalized record as stored in a snapshot document's level array
(fields `id`/`name`/`spend`/`conv`/`cpl` plus parent ids; main.py lines
173-179, 190-197 and 208-216). -/
structure SnapRecord where
  id : Option String
  name : String
  campaign_id : Option String := none
  adset_id : Option String := none
  spend : ℚ
  conv : ℤ
  cpl : Option ℚ
deriving DecidableEq

/-- A snapshot document: three per-level record arrays (the `ts`/`date` strings
are timestamp plumbing and carry no logic). -/
structure Snapshot where
  campaign : List SnapRecord
  adset : List SnapRecord
  ad : List SnapRecord
deriving DecidableEq

/-- Body of the campaign loop of `collect` (main.py lines 164-179). -/
def normalize_campaign (item : RawInsight) : Except String SnapRecord := do
  let spend ← pyFloatField item.spend
  let conv := extract_action_value item.actions ACTION_TYPE
  let cpa := extract_cost_per_action item.cost_per_action_type ACTION_TYPE
  let cpl := calculate_cpl spend conv cpa
  .ok { id := item.campaign_id, name := item.campaign_name.getD "",
        spend := spend, conv := conv, cpl := cpl }

/-- Body of the adset loop of `collect` (main.py lines 181-197). -/
def normalize_adset (item : RawInsight) : Except String SnapRecord := do
  let spend ← pyFloatField item.spend
  let conv := extract_action_value item.actions ACTION_TYPE
  let cpa := extract_cost_per_action item.cost_per_action_type ACTION_TYPE
  let cpl := calculate_cpl spend conv cpa
  .ok { id := item.adset_id, name := item.adset_name.getD "",
        campaign_id := item.campaign_id,
        spend := spend, conv := conv, cpl := cpl }

/-- Body of the ad loop of `collect` (main.py lines 199-216). -/
def normalize_ad (item : RawInsight) : Except String SnapRecord := do
  let spend ← pyFloatField item.spend
  let conv := extract_action_value item.actions ACTION_TYPE
  let cpa := extract_cost_per_action item.cost_per_action_type ACTION_TYPE
  let cpl := calculate_cpl spend conv cpa
  .ok { id := item.ad_id, name := item.ad_name.getD "",
        campaign_id := item.campaign_id, adset_id := item.adset_id,
        spend := spend, conv := conv, cpl := cpl }

/-- Sequential normalization of one level's raw list: the Python `for` loop
appends one record per raw item in source order and lets the first exception
escape. -/
def mapExcept (f : α → Except String β) : List α → Except String (List β)
  | [] => .ok []
  | x :: xs => do
      let y ← f x
      let ys ← mapExcept f xs
      .ok (y :: ys)

/-- The `collect` endpoint body (main.py lines 146-231), taking the outcomes of
the three `get_meta_insights` calls as inputs (each either a raw record list or
the error the fetch raised).  Any raised error escapes before the Firestore
write, so the result is the snapshot written on success, or the error. -/
def collect (campaigns adsets ads : Except String (List RawInsight)) :
    Except String Snapshot := do
  let cs ← campaigns
  let ass ← adsets
  let ds ← ads
  let crecs ← mapExcept normalize_campaign cs
  let arecs ← mapExcept normalize_adset ass
  let drecs ← mapExcept normalize_ad ds
  .ok { campaign := crecs, adset := arecs, ad := drecs }

/-- A run of the `collect` endpoint against a store (the list of snapshots
already persisted): on success the snapshot document is written, on error the
store is untouched and the error is surfaced (HTTP 500, main.py lines
218-235). -/
def run_collect (store : List Snapshot)
    (campaigns adsets ads : Except String (List RawInsight)) :
    List Snapshot × Option String :=
  match collect campaigns adsets ads with
  | .ok s => (store ++ [s], none)
  | .error e => (store, some e)

/-- The level path parameter of `/intraday/{level}`. -/
inductive Level where
  | campaign
  | adset
  | ad
deriving DecidableEq

/-- `current.get(level, [])`: the record array of one level of a snapshot. -/
def Snapshot.levelRecords (s : Snapshot) : Level → List SnapRecord
  | .campaign => s.campaign
  | .adset => s.adset
  | .ad => s.ad

/-- Insertion into a Python dict: an existing key keeps its position and gets
the new value, a new key is appended. -/
def upsert (m : List (Option String × SnapRecord)) (k : Option String)
    (v : SnapRecord) : List (Option String × SnapRecord) :=
  match m with
  | [] => [(k, v)]
  | (k0, v0) :: rest =>
      if k0 = k then (k0, v) :: rest else (k0, v0) :: upsert rest k v

/-- The dict comprehension `{item["id"]: item for item in ...}` (main.py lines
259-260): left-to-right insertion, last write wins per id. -/
def indexById (rs : List SnapRecord) : List (Option String × SnapRecord) :=
  rs.foldl (fun m r => upsert m r.id r) []

/-- Python dict lookup on the association-list model. -/
def lookupId (m : List (Option String × SnapRecord)) (k : Option String) :
    Option SnapRecord :=
  match m with
  | [] => none
  | (k0, v0) :: rest => if k0 = k then some v0 else lookupId rest k

/-- `previous_items.get(item_id, {"spend": 0, "conv": 0})["spend"]`. -/
def prevSpend (pidx : List (Option String × SnapRecord)) (k : Option String) : ℚ :=
  match lookupId pidx k with
  | some p => p.spend
  | none => 0

/-- `previous_items.get(item_id, {"spend": 0, "conv": 0})["conv"]`. -/
def prevConv (pidx : List (Option String × SnapRecord)) (k : Option String) : ℤ :=
  match lookupId pidx k with
  | some p => p.conv
  | none => 0

/-- One element of the `result` array of `get_intraday`. -/
structure DeltaRecord where
  id : Option String
  name : String
  campaign_id : Option String
  adset_id : Option String
  spend_today : ℚ
  conv_today : ℤ
  cpl_today : Option ℚ
  spend_30m : ℚ
  conv_30m : ℤ
  cpl_30m : Option ℚ
deriving DecidableEq

/-- Body of the result loop of `get_intraday` (main.py lines 262-280). -/
def deltaOf (pidx : List (Option String × SnapRecord))
    (entry : Option String × SnapRecord) : DeltaRecord :=
  let curr := entry.2
  let spend_30m := curr.spend - prevSpend pidx entry.1
  let conv_30m := curr.conv - prevConv pidx entry.1
  { id := entry.1, name := curr.name,
    campaign_id := curr.campaign_id, adset_id := curr.adset_id,
    spend_today := curr.spend, conv_today := curr.conv, cpl_today := curr.cpl,
    spend_30m := spend_30m, conv_30m := conv_30m,
    cpl_30m := if 0 < conv_30m then some (spend_30m / (conv_30m : ℚ)) else none }

/-- `previous_items`: empty when fewer than two snapshots exist (main.py lines
255, 260). -/
def previousIndex (rest : List Snapshot) (lvl : Level) :
    List (Option String × SnapRecord) :=
  match rest with
  | [] => []
  | p :: _ => indexById (p.levelRecords lvl)

/-- The `get_intraday` endpoint body (main.py lines 245-282).  Its input is the
result of the store query: the at-most-two most recent snapshots, newest
first. -/
def get_intraday (snapshot_list : List Snapshot) (lvl : Level) : List DeltaRecord :=
  match snapshot_list with
  | [] => []
  | current :: rest =>
      (indexById (current.levelRecords lvl)).map (deltaOf (previousIndex rest lvl))

/-- The last record of a list whose `id` equals `k` (what "last write wins"
should leave in the index for key `k`). -/
def lastMatch (rs : List SnapRecord) (k : Option String) : Option SnapRecord :=
  match rs with
  | [] => none
  | r :: rest =>
      match lastMatch rest k with
      | some x => some x
      | none => if r.id = k then some r else none

/-! ### Association-list (Python dict) lemmas -/

theorem lookupId_upsert (m : List (Option String × SnapRecord))
    (ku : Option String) (v : SnapRecord) (k : Option String) :
    lookupId (upsert m ku v) k = if ku = k then some v else lookupId m k := by
  induction m with
  | nil => simp [upsert, lookupId]
  | cons hd tl ih =>
      obtain ⟨k0, v0⟩ := hd
      by_cases h0 : k0 = ku
      · subst h0
        simp only [upsert, if_pos rfl, lookupId]
        by_cases hk : k0 = k <;> simp [hk]
      · simp only [upsert, if_neg h0, lookupId]
        by_cases hk : k0 = k
        · subst hk
          have hne : ¬ ku = k0 := fun h => h0 h.symm
          simp [hne]
        · simp only [if_neg hk, ih]

theorem mem_keys_upsert (m : List (Option String × SnapRecord))
    (k : Option String) (v : SnapRecord) (k' : Option String) :
    k' ∈ (upsert m k v).map Prod.fst ↔ k' ∈ m.map Prod.fst ∨ k' = k := by
  induction m with
  | nil => simp [upsert]
  | cons hd tl ih =>
      obtain ⟨k0, v0⟩ := hd
      by_cases h0 : k0 = k
      · subst h0
        simp [upsert]
        tauto
      · simp [upsert, h0, ih]
        tauto

theorem nodup_keys_upsert (m : List (Option String × SnapRecord))
    (k : Option String) (v : SnapRecord)
    (h : (m.map Prod.fst).Nodup) : ((upsert m k v).map Prod.fst).Nodup := by
  induction m with
  | nil => simp [upsert]
  | cons hd tl ih =>
      obtain ⟨k0, v0⟩ := hd
      rw [List.map_cons, List.nodup_cons] at h
      by_cases h0 : k0 = k
      · subst h0
        simp only [upsert, if_pos rfl]
        simpa using h
      · simp only [upsert, if_neg h0, List.map_cons, List.nodup_cons]
        constructor
        · rw [mem_keys_upsert]
          rintro (hmem | rfl)
          · exact h.1 hmem
          · exact h0 rfl
        · exact ih h.2

theorem lookupId_of_mem (m : List (Option String × SnapRecord))
    (h : (m.map Prod.fst).Nodup) (e : Option String × SnapRecord)
    (he : e ∈ m) : lookupId m e.1 = some e.2 := by
  induction m with
  | nil => cases he
  | cons hd tl ih =>
      rw [List.map_cons, List.nodup_cons] at h
      rcases List.mem_cons.mp he with rfl | hmem
      · obtain ⟨k0, v0⟩ := e
        simp [lookupId]
      · have hk : hd.1 ≠ e.1 := by
          intro hk
          apply h.1
          rw [hk]
          exact List.mem_map.mpr ⟨e, hmem, rfl⟩
        obtain ⟨k0, v0⟩ := hd
        simp only [lookupId]
        rw [if_neg hk]
        exact ih h.2 hmem

theorem nodup_keys_foldl (rs : List SnapRecord)
    (m : List (Option String × SnapRecord)) (h : (m.map Prod.fst).Nodup) :
    (((rs.foldl (fun m r => upsert m r.id r) m)).map Prod.fst).Nodup := by
  induction rs generalizing m with
  | nil => simpa using h
  | cons r rest ih => exact ih _ (nodup_keys_upsert m r.id r h)

theorem nodup_keys_indexById (rs : List SnapRecord) :
    ((indexById rs).map Prod.fst).Nodup :=
  nodup_keys_foldl rs [] (by simp)

theorem lookupId_foldl (rs : List SnapRecord)
    (m : List (Option String × SnapRecord)) (k : Option String) :
    lookupId (rs.foldl (fun m r => upsert m r.id r) m) k =
      match lastMatch rs k with
      | some x => some x
      | none => lookupId m k := by
  induction rs generalizing m with
  | nil => simp [lastMatch]
  | cons r rest ih =>
      show lookupId (rest.foldl _ (upsert m r.id r)) k = _
      rw [ih]
      cases hrest : lastMatch rest k with
      | some x => simp [lastMatch, hrest]
      | none =>
          simp [lastMatch, hrest, lookupId_upsert]
          by_cases hr : r.id = k <;> simp [hr]

theorem lookupId_indexById (rs : List SnapRecord) (k : Option String) :
    lookupId (indexById rs) k = lastMatch rs k := by
  rw [indexById, lookupId_foldl]
  cases lastMatch rs k <;> simp [lookupId]

theorem mapExcept_ok_length (f : α → Except String β) (xs : List α)
    (ys : List β) (h : mapExcept f xs = .ok ys) : ys.length = xs.length := by
  induction xs generalizing ys with
  | nil =>
      simp [mapExcept] at h
      simp [← h]
  | cons x rest ih =>
      simp [mapExcept, Bind.bind, Except.bind] at h
      cases hx : f x with
      | error e => rw [hx] at h; cases h
      | ok y =>
          rw [hx] at h
          cases hrest : mapExcept f rest with
          | error e => rw [hrest] at h; cases h
          | ok zs =>
              rw [hrest] at h
              cases h
              simp [ih zs hrest]

/-! ### Concrete fixtures for witnesses and counterexamples -/

/-- A concrete stored record: spend 100, 5 conversions, cpl 20. -/
def recW : SnapRecord :=
  { id := some "X", name := "X", spend := 100, conv := 5, cpl := some 20 }

/-- A one-record snapshot holding `recW` at campaign level. -/
def sW : Snapshot := { campaign := [recW], adset := [], ad := [] }

/-- The delta record the engine produces for `recW` when `sW` is the only
snapshot. -/
def rW : DeltaRecord := deltaOf (previousIndex [] Level.campaign) (recW.id, recW)

/-- A raw insight whose API-reported cost per action (30) differs from
spend / conversions (100 / 5 = 20). -/
def rawC2 : RawInsight :=
  { campaign_id := some "X", campaign_name := some "X", spend := .num 100,
    actions := [{ action_type := some ACTION_TYPE, value := some 5 }],
    cost_per_action_type := [{ action_type := some ACTION_TYPE, value := some 30 }] }

/-- The snapshot `collect` builds from `rawC2`. -/
def sC2 : Snapshot :=
  { campaign := [{ id := some "X", name := "X", spend := 100, conv := 5, cpl := some 30 }],
    adset := [], ad := [] }

/-- A raw insight whose spend field is an unparsable string. -/
def rawBadSpend : RawInsight := { campaign_id := some "a", spend := .badStr "abc" }

/-- A raw insight whose spend field is a negative number. -/
def rawNegSpend : RawInsight := { campaign_id := some "b", spend := .num (-5) }

/-! ### Claim theorems -/

/-- Claim C9: when zero snapshots exist in the store, the Delta Engine returns
an empty result sequence for every requested level, not an error. -/
theorem empty_store_returns_empty (lvl : Level) : get_intraday [] lvl = [] := rfl

/-- Claim C4: the derived cost value prefers the reported cost-per-action when
present; otherwise it is `spend / conversions` when conversions > 0 (and the
divisor is then nonzero, so the fallback never divides by zero); otherwise
null. -/
theorem calculate_cpl_spec (spend : ℚ) (conv : ℤ) (cpa : Option ℚ) :
    (∀ c, cpa = some c → calculate_cpl spend conv cpa = some c) ∧
    (cpa = none → 0 < conv →
      calculate_cpl spend conv cpa = some (spend / (conv : ℚ)) ∧ ((conv : ℚ) ≠ 0)) ∧
    (cpa = none → conv ≤ 0 → calculate_cpl spend conv cpa = none) := by
  refine ⟨?_, ?_, ?_⟩
  · rintro c rfl
    rfl
  · rintro rfl hc
    refine ⟨by simp [calculate_cpl, hc], ?_⟩
    exact Int.cast_ne_zero.mpr (by omega)
  · rintro rfl hc
    simp [calculate_cpl, show ¬ 0 < conv by omega]

/-- Witness for C4 at spend 10, conv 2, no reported cost. -/
theorem calculate_cpl_spec_witness :
    calculate_cpl 10 2 none = some (10 / ((2 : ℤ) : ℚ)) ∧ (((2 : ℤ) : ℚ) ≠ 0) :=
  (calculate_cpl_spec 10 2 none).2.1 rfl (by decide)

/-- Claim C3: every delta record's window cost equals window spend divided by
window conversions when the latter is positive, and is null whenever the window
conversions are zero or negative, so the division is never evaluated with a
zero or negative divisor. -/
theorem intraday_window_cpl_guarded (snaps : List Snapshot) (lvl : Level) :
    ∀ r ∈ get_intraday snaps lvl,
      r.cpl_30m = (if 0 < r.conv_30m then some (r.spend_30m / (r.conv_30m : ℚ)) else none) ∧
      (r.conv_30m ≤ 0 → r.cpl_30m = none) ∧
      (r.cpl_30m ≠ none → 0 < r.conv_30m) := by
  intro r hr
  cases snaps with
  | nil => cases hr
  | cons current rest =>
      simp only [get_intraday] at hr
      obtain ⟨e, he, rfl⟩ := List.mem_map.mp hr
      have hdef : (deltaOf (previousIndex rest lvl) e).cpl_30m =
          if 0 < (deltaOf (previousIndex rest lvl) e).conv_30m
          then some ((deltaOf (previousIndex rest lvl) e).spend_30m /
                      ((deltaOf (previousIndex rest lvl) e).conv_30m : ℚ))
          else none := rfl
      refine ⟨hdef, ?_, ?_⟩
      · intro hle
        rw [hdef, if_neg (by omega)]
      · intro hne
        by_contra hle
        exact hne (by rw [hdef, if_neg hle])

/-- Witness for C3 on a one-record, one-snapshot store. -/
theorem intraday_window_cpl_guarded_witness :
    rW ∈ get_intraday [sW] Level.campaign ∧
    (rW.cpl_30m = (if 0 < rW.conv_30m then some (rW.spend_30m / (rW.conv_30m : ℚ)) else none) ∧
      (rW.conv_30m ≤ 0 → rW.cpl_30m = none) ∧
      (rW.cpl_30m ≠ none → 0 < rW.conv_30m)) :=
  ⟨List.mem_singleton.mpr rfl,
   intraday_window_cpl_guarded [sW] Level.campaign rW (List.mem_singleton.mpr rfl)⟩

/-- Claim C1: the Delta Engine result has exactly one record per id of the
current snapshot's level index (ids only in `previous` are dropped), and each
record's window spend/conversions are current minus previous, with previous
defaulting to 0 for unseen ids and negative differences preserved as raw
subtractions. -/
theorem intraday_one_record_per_current_id (current : Snapshot) (rest : List Snapshot)
    (lvl : Level) :
    (get_intraday (current :: rest) lvl).map DeltaRecord.id
        = (indexById (current.levelRecords lvl)).map Prod.fst ∧
    ((indexById (current.levelRecords lvl)).map Prod.fst).Nodup ∧
    ∀ r ∈ get_intraday (current :: rest) lvl,
      ∃ curr, lookupId (indexById (current.levelRecords lvl)) r.id = some curr ∧
        r.spend_30m = curr.spend - prevSpend (previousIndex rest lvl) r.id ∧
        r.conv_30m = curr.conv - prevConv (previousIndex rest lvl) r.id := by
  refine ⟨?_, nodup_keys_indexById _, ?_⟩
  · simp only [get_intraday, List.map_map]
    rfl
  · intro r hr
    simp only [get_intraday] at hr
    obtain ⟨e, he, rfl⟩ := List.mem_map.mp hr
    exact ⟨e.2, lookupId_of_mem _ (nodup_keys_indexById _) e he, rfl, rfl⟩

/-- Witness for C1 on a one-record, one-snapshot store. -/
theorem intraday_one_record_per_current_id_witness :
    rW ∈ get_intraday [sW] Level.campaign ∧
    ∃ curr, lookupId (indexById (sW.levelRecords Level.campaign)) rW.id = some curr ∧
      rW.spend_30m = curr.spend - prevSpend (previousIndex [] Level.campaign) rW.id ∧
      rW.conv_30m = curr.conv - prevConv (previousIndex [] Level.campaign) rW.id :=
  ⟨List.mem_singleton.mpr rfl,
   (intraday_one_record_per_current_id sW [] Level.campaign).2.2 rW
     (List.mem_singleton.mpr rfl)⟩

/-- Counterexample to claim C2: with a single snapshot whose record was built
from an API-reported cost per action of 30 (spend 100, conversions 5), the
window cost is recomputed as 100 / 5 = 20 while the cumulative cost is the
stored 30, so not all window fields equal the cumulative fields. -/
theorem single_snapshot_cpl_mismatch :
    collect (.ok [rawC2]) (.ok []) (.ok []) = .ok sC2 ∧
    (get_intraday [sC2] Level.campaign).map (fun r => (r.cpl_30m, r.cpl_today))
      = [(some 20, some 30)] ∧
    some (20 : ℚ) ≠ some (30 : ℚ) := by
  refine ⟨?_, ?_, by norm_num⟩
  · norm_num [collect, rawC2, sC2, mapExcept, normalize_campaign, pyFloatField,
      extract_action_value, extract_cost_per_action, calculate_cpl, pyInt, ACTION_TYPE,
      Bind.bind, Except.bind]
  · norm_num [get_intraday, sC2, indexById, upsert, deltaOf, prevSpend, prevConv,
      lookupId, previousIndex, Snapshot.levelRecords]

/-- Amended claim C2: with a single snapshot, each delta record's window spend
and window conversions equal the cumulative ones, and the window cost is
`spend_cumulative / conversions_cumulative` when conversions are positive, else
null — which equals the stored cumulative cost only when that cost is the same
ratio. -/
theorem single_snapshot_window_equals_cumulative (s : Snapshot) (lvl : Level) :
    ∀ r ∈ get_intraday [s] lvl,
      r.spend_30m = r.spend_today ∧ r.conv_30m = r.conv_today ∧
      r.cpl_30m = (if 0 < r.conv_today then some (r.spend_today / (r.conv_today : ℚ))
                   else none) := by
  intro r hr
  simp only [get_intraday] at hr
  obtain ⟨e, he, rfl⟩ := List.mem_map.mp hr
  obtain ⟨k, curr⟩ := e
  refine ⟨sub_zero _, sub_zero _, ?_⟩
  show (if 0 < curr.conv - prevConv (previousIndex [] lvl) k
        then some ((curr.spend - prevSpend (previousIndex [] lvl) k) /
                   ((curr.conv - prevConv (previousIndex [] lvl) k : ℤ) : ℚ))
        else none)
      = if 0 < curr.conv then some (curr.spend / (curr.conv : ℚ)) else none
  have h1 : prevSpend (previousIndex [] lvl) k = 0 := rfl
  have h2 : prevConv (previousIndex [] lvl) k = 0 := rfl
  rw [h1, h2, sub_zero, sub_zero]

/-- Witness for the amended C2 on a one-record, one-snapshot store. -/
theorem single_snapshot_window_equals_cumulative_witness :
    rW ∈ get_intraday [sW] Level.campaign ∧
    (rW.spend_30m = rW.spend_today ∧ rW.conv_30m = rW.conv_today ∧
     rW.cpl_30m = (if 0 < rW.conv_today then some (rW.spend_today / (rW.conv_today : ℚ))
                   else none)) :=
  ⟨List.mem_singleton.mpr rfl,
   single_snapshot_window_equals_cumulative sW Level.campaign rW
     (List.mem_singleton.mpr rfl)⟩

/-- Counterexample to claim C5: a spend field holding the unparsable string
"abc" makes the whole collection cycle fail (Python `float` raises, the claim
says it must be treated as 0 and never fail); and a negative spend is kept
negative, not coerced non-negative. -/
theorem spend_malformed_fails_cycle :
    (collect (.ok [rawBadSpend]) (.ok []) (.ok [])).isOk = false ∧
    normalize_campaign rawNegSpend =
      .ok { id := some "b", name := "", spend := -5, conv := 0, cpl := none } ∧
    (-5 : ℚ) < 0 := by
  refine ⟨rfl, rfl, by norm_num⟩

/-- Amended claim C5: the Normalizer yields spend = 0 when the spend field is
absent and the field's numeric value as-is (negative included) when it parses;
a string unparsable as a float raises an error that fails the whole collection
cycle — one bad record aborts the run with no snapshot written. -/
theorem spend_normalization (item : RawInsight) :
    (item.spend = .missing → ∃ r, normalize_campaign item = .ok r ∧ r.spend = 0) ∧
    (∀ q, item.spend = .num q → ∃ r, normalize_campaign item = .ok r ∧ r.spend = q) ∧
    (∀ s, item.spend = .badStr s →
      (normalize_campaign item).isOk = false ∧
      (collect (.ok [item]) (.ok []) (.ok [])).isOk = false) := by
  refine ⟨?_, ?_, ?_⟩
  · intro h
    refine ⟨{ id := item.campaign_id, name := item.campaign_name.getD "",
              spend := 0,
              conv := extract_action_value item.actions ACTION_TYPE,
              cpl := calculate_cpl 0 (extract_action_value item.actions ACTION_TYPE)
                       (extract_cost_per_action item.cost_per_action_type ACTION_TYPE) },
            ?_, rfl⟩
    simp [normalize_campaign, h, pyFloatField, Bind.bind, Except.bind]
  · intro q h
    refine ⟨{ id := item.campaign_id, name := item.campaign_name.getD "",
              spend := q,
              conv := extract_action_value item.actions ACTION_TYPE,
              cpl := calculate_cpl q (extract_action_value item.actions ACTION_TYPE)
                       (extract_cost_per_action item.cost_per_action_type ACTION_TYPE) },
            ?_, rfl⟩
    simp [normalize_campaign, h, pyFloatField, Bind.bind, Except.bind]
  · intro s h
    constructor
    · simp [normalize_campaign, h, pyFloatField, Bind.bind, Except.bind,
        Except.isOk, Except.toBool]
    · simp [collect, mapExcept, normalize_campaign, h, pyFloatField,
        Bind.bind, Except.bind, Except.isOk, Except.toBool]

/-- Witness for the amended C5 at the concrete malformed record. -/
theorem spend_normalization_witness :
    (normalize_campaign rawBadSpend).isOk = false ∧
    (collect (.ok [rawBadSpend]) (.ok []) (.ok [])).isOk = false :=
  (spend_normalization rawBadSpend).2.2 "abc" rfl

/-- Counterexample to claim C6: with non-negative spend (0) and conversions
(0) but a reported cost-per-action of -5, the derived cost is -5, which is
negative. -/
theorem negative_reported_cpa :
    (0 : ℚ) ≤ 0 ∧ (0 : ℤ) ≤ 0 ∧
    calculate_cpl 0 0 (extract_cost_per_action
        [{ action_type := some ACTION_TYPE, value := some (-5) }] ACTION_TYPE)
      = some (-5) ∧
    (-5 : ℚ) < 0 := by
  refine ⟨le_refl _, le_refl _, ?_, by norm_num⟩
  simp [extract_cost_per_action, calculate_cpl]

/-- Amended claim C6: when spend and conversions are non-negative and any
matched reported cost-per-action value is non-negative, the derived cost is
never negative; and it is null exactly when conversions = 0 and the
cost-per-action extraction finds nothing. -/
theorem cpl_nonneg_of_nonneg_inputs (spend : ℚ) (conv : ℤ) (items : List ActionEntry)
    (hs : 0 ≤ spend) (hc : 0 ≤ conv)
    (hcpa : ∀ c, extract_cost_per_action items ACTION_TYPE = some c → 0 ≤ c) :
    (∀ v, calculate_cpl spend conv (extract_cost_per_action items ACTION_TYPE) = some v
        → 0 ≤ v) ∧
    (calculate_cpl spend conv (extract_cost_per_action items ACTION_TYPE) = none ↔
      conv = 0 ∧ extract_cost_per_action items ACTION_TYPE = none) := by
  cases hx : extract_cost_per_action items ACTION_TYPE with
  | some c =>
      refine ⟨?_, by simp [calculate_cpl]⟩
      intro v hv
      have hcv : c = v := by simpa [calculate_cpl] using hv
      exact hcv ▸ hcpa c hx
  | none =>
      by_cases hpos : 0 < conv
      · refine ⟨?_, ?_⟩
        · intro v hv
          have hsv : spend / (conv : ℚ) = v := by simpa [calculate_cpl, hpos] using hv
          rw [← hsv]
          exact div_nonneg hs (by exact_mod_cast hc)
        · simp [calculate_cpl, hpos]
          omega
      · have hzero : conv = 0 := le_antisymm (by omega) hc
        refine ⟨?_, ?_⟩
        · intro v hv
          simp [calculate_cpl, hpos] at hv
        · simp [calculate_cpl, hpos, hzero]

/-- Witness for the amended C6 at spend 10, conv 2, empty cost list. -/
theorem cpl_nonneg_of_nonneg_inputs_witness :
    (∀ v, calculate_cpl 10 2 (extract_cost_per_action [] ACTION_TYPE) = some v → 0 ≤ v) ∧
    (calculate_cpl 10 2 (extract_cost_per_action [] ACTION_TYPE) = none ↔
      (2 : ℤ) = 0 ∧ extract_cost_per_action [] ACTION_TYPE = none) :=
  cpl_nonneg_of_nonneg_inputs 10 2 [] (by norm_num) (by decide)
    (by intro c h; simp [extract_cost_per_action] at h)

/-- A raw campaign insight with id "a", spend 1. -/
def rawDupA : RawInsight :=
  { campaign_id := some "a", campaign_name := some "first", spend := .num 1 }

/-- A second raw campaign insight repeating id "a", spend 2. -/
def rawDupB : RawInsight :=
  { campaign_id := some "a", campaign_name := some "second", spend := .num 2 }

/-- The snapshot `collect` builds from the duplicated-id source
`[rawDupA, rawDupB]`. -/
def sDup : Snapshot :=
  { campaign := [{ id := some "a", name := "first", spend := 1, conv := 0, cpl := none },
                 { id := some "a", name := "second", spend := 2, conv := 0, cpl := none }],
    adset := [], ad := [] }

/-- Counterexample to claim C7: when the source repeats id "a", the Snapshot
Builder emits both records, so the level's id sequence is not unique — the
last-write-wins dedup happens only later, in the Delta Engine's index. -/
theorem snapshot_builder_keeps_duplicate_ids :
    collect (.ok [rawDupA, rawDupB]) (.ok []) (.ok []) = .ok sDup ∧
    sDup.campaign.map SnapRecord.id = [some "a", some "a"] ∧
    ¬ (sDup.campaign.map SnapRecord.id).Nodup := by
  refine ⟨rfl, rfl, by decide⟩

/-- Amended claim C7: the Snapshot Builder emits one record per source row
(duplicates preserved, one output per input); id uniqueness with last write
winning holds for the Delta Engine's per-level index built from the stored
sequence. -/
theorem index_unique_last_write (rs : List SnapRecord) :
    ((indexById rs).map Prod.fst).Nodup ∧
    (∀ k, lookupId (indexById rs) k = lastMatch rs k) ∧
    (∀ raws s, collect (.ok raws) (.ok []) (.ok []) = .ok s →
      s.campaign.length = raws.length) := by
  refine ⟨nodup_keys_indexById rs, fun k => lookupId_indexById rs k, ?_⟩
  intro raws s h
  have hcol : collect (.ok raws) (.ok []) (.ok [])
      = Except.bind (mapExcept normalize_campaign raws)
          (fun crecs => .ok { campaign := crecs, adset := [], ad := [] }) := rfl
  rw [hcol] at h
  cases hm : mapExcept normalize_campaign raws with
  | error e =>
      rw [hm] at h
      cases h
  | ok recs =>
      rw [hm] at h
      have hs : ({ campaign := recs, adset := [], ad := [] } : Snapshot) = s := by
        cases h
        rfl
      rw [← hs]
      exact mapExcept_ok_length _ _ _ hm

/-- Witness for the amended C7 on the duplicated-id fixture. -/
theorem index_unique_last_write_witness :
    ((indexById sDup.campaign).map Prod.fst).Nodup ∧
    lookupId (indexById sDup.campaign) (some "a") = lastMatch sDup.campaign (some "a") ∧
    sDup.campaign.length = [rawDupA, rawDupB].length :=
  ⟨(index_unique_last_write sDup.campaign).1,
   (index_unique_last_write sDup.campaign).2.1 (some "a"),
   (index_unique_last_write sDup.campaign).2.2 [rawDupA, rawDupB] sDup rfl⟩

/-- Claim C8: if any one level's fetch fails, `collect` surfaces that error
(an error of one of the three fetches) and writes nothing to the store. -/
theorem fetch_failure_aborts (store : List Snapshot)
    (c a d : Except String (List RawInsight))
    (h : (∃ e, c = .error e) ∨ (∃ e, a = .error e) ∨ (∃ e, d = .error e)) :
    ∃ e, collect c a d = .error e ∧
      (c = .error e ∨ a = .error e ∨ d = .error e) ∧
      run_collect store c a d = (store, some e) := by
  rcases h with ⟨e, rfl⟩ | ⟨e, he⟩ | ⟨e, he⟩
  · exact ⟨e, rfl, Or.inl rfl, rfl⟩
  · cases c with
    | error e0 => exact ⟨e0, rfl, Or.inl rfl, rfl⟩
    | ok l =>
        subst he
        exact ⟨e, rfl, Or.inr (Or.inl rfl), rfl⟩
  · cases c with
    | error e0 => exact ⟨e0, rfl, Or.inl rfl, rfl⟩
    | ok l =>
        cases a with
        | error e0 => exact ⟨e0, rfl, Or.inr (Or.inl rfl), rfl⟩
        | ok l2 =>
            subst he
            exact ⟨e, rfl, Or.inr (Or.inr rfl), rfl⟩

/-- Witness for C8: a failing campaign fetch aborts the run and leaves the
store untouched. -/
theorem fetch_failure_aborts_witness :
    ∃ e, collect (.error "boom") (.ok []) (.ok []) = .error e ∧
      ((Except.error "boom" : Except String (List RawInsight)) = .error e ∨
       (Except.ok [] : Except String (List RawInsight)) = .error e ∨
       (Except.ok [] : Except String (List RawInsight)) = .error e) ∧
      run_collect [] (.error "boom") (.ok []) (.ok []) = ([], some e) :=
  fetch_failure_aborts [] (.error "boom") (.ok []) (.ok []) (Or.inl ⟨"boom", rfl⟩)

/-- Counterexample to claim C10: a list can contain a target-matching entry
without a value field and yet the extraction does not return 0.0 — an earlier
matching entry wins, here returning 7. -/
theorem matching_entry_without_value_not_first :
    ({ action_type := some ACTION_TYPE, value := none } : ActionEntry) ∈
      [({ action_type := some ACTION_TYPE, value := some 7 } : ActionEntry),
       { action_type := some ACTION_TYPE, value := none }] ∧
    extract_cost_per_action
      [{ action_type := some ACTION_TYPE, value := some 7 },
       { action_type := some ACTION_TYPE, value := none }] ACTION_TYPE = some 7 ∧
    some (7 : ℚ) ≠ some (0 : ℚ) := by
  refine ⟨by simp, by simp [extract_cost_per_action], by norm_num⟩

/-- Amended claim C10: when the FIRST entry whose action_type matches the
target lacks a value field (earlier entries do not match), the extraction
returns 0.0 rather than null, so the derived cost is 0.0 and the spend-based
fallback is not applied. -/
theorem first_match_missing_value_yields_zero (pre suf : List ActionEntry)
    (e : ActionEntry) (spend : ℚ) (conv : ℤ) (t : String)
    (hpre : ∀ x ∈ pre, x.action_type ≠ some t)
    (hmatch : e.action_type = some t) (hval : e.value = none) :
    extract_cost_per_action (pre ++ e :: suf) t = some 0 ∧
    calculate_cpl spend conv (extract_cost_per_action (pre ++ e :: suf) t) = some 0 := by
  have hx : ∀ pre2 : List ActionEntry, (∀ x ∈ pre2, x.action_type ≠ some t) →
      extract_cost_per_action (pre2 ++ e :: suf) t = some 0 := by
    intro pre2
    induction pre2 with
    | nil =>
        intro _
        simp [extract_cost_per_action, hmatch, hval]
    | cons p rest ih =>
        intro hpre2
        have hp : p.action_type ≠ some t := hpre2 p (by simp)
        simp only [List.cons_append, extract_cost_per_action]
        rw [if_neg hp]
        exact ih (fun x hxm => hpre2 x (List.mem_cons_of_mem _ hxm))
  refine ⟨hx pre hpre, ?_⟩
  rw [hx pre hpre]
  rfl

/-- Witness for the amended C10 at a single matching entry with no value. -/
theorem first_match_missing_value_witness :
    extract_cost_per_action
        ([] ++ ({ action_type := some ACTION_TYPE, value := none } : ActionEntry) :: [])
        ACTION_TYPE = some 0 ∧
    calculate_cpl 3 4 (extract_cost_per_action
        ([] ++ ({ action_type := some ACTION_TYPE, value := none } : ActionEntry) :: [])
        ACTION_TYPE) = some 0 :=
  first_match_missing_value_yields_zero [] [] _ 3 4 ACTION_TYPE
    (by intro x hx; cases hx) rfl rfl

end MetaDash
